import Mathlib

/-!
Verification of the DeepSeek Discord bot (`deepseek_bot.py`): a shallow
embedding of the per-channel conversation store
(`update_conversation_history`), the completion client (`call_deepseek_api`),
and the command handlers (`ask_deepseek`, `clear_history`, `set_model`),
together with proofs of the specification's testable properties.

Conventions of the embedding:
* Python dicts keyed by channel id become functions `ChannelId → Option _`
  (`none` models an absent key).
* The HTTP transport is an oracle `Payload → HttpResult`; a `RequestException`
  (connection error or non-2xx status, surfaced by `raise_for_status`) is
  `HttpResult.failure`, and a decoded JSON body is `HttpResult.success`.
  Fields that the code reads with `result['choices'][0]['message']['content']`
  are modelled as `Option`s, so that a missing key (Python `KeyError`) is
  `none` and an empty `choices` array (Python `IndexError`) is `[]`.
* A handler returns its final state together with the ordered list of
  observable effects (API call, store update, messages sent), so that
  temporal claims about effect order become claims about list order.
-/

namespace DeepSeekBot

/-! ## Data model -/

/-- The `"role"` field of a chat message dict. -/
inductive Role
  | user
  | assistant
  deriving DecidableEq, Repr

/-- One element of the `messages` array: `{"role": ..., "content": ...}`. -/
structure Turn where
  role : Role
  content : String
  deriving DecidableEq, Repr

/-- Discord channel ids (`ctx.channel.id`) are integers. -/
abbrev ChannelId := Nat

/-- The `conversation_histories` dict: channel id → list of turns; `none`
models a key that is not present. -/
abbrev Histories := ChannelId → Option (List Turn)

/-- The initial, empty `conversation_histories = {}`. -/
def emptyHistories : Histories := fun _ => none

/-- Python's `xs[-n:]`: the last `n` elements (all of `xs` when it is
shorter). -/
def lastN (n : Nat) (xs : List α) : List α := xs.drop (xs.length - n)

/-- Embedding of `update_conversation_history(channel_id, user_message,
assistant_response)` (lines 71–86): extend the channel's history (creating it
if absent) with the user turn then the assistant turn, then truncate to the
last 20 entries when the length exceeds 20. -/
def update_conversation_history (hs : Histories) (ch : ChannelId)
    (user_message assistant_response : String) : Histories :=
  let history := (hs ch).getD []
  let extended := history ++
    [⟨Role.user, user_message⟩, ⟨Role.assistant, assistant_response⟩]
  let bounded := if extended.length > 20 then lastN 20 extended else extended
  fun c => if c = ch then some bounded else hs c

/-- The effect of one `update_conversation_history` call on a single channel's
history: append the (user, assistant) pair, then truncate. -/
def appendPair (h : List Turn) (p : String × String) : List Turn :=
  let extended := h ++ [⟨Role.user, p.1⟩, ⟨Role.assistant, p.2⟩]
  if extended.length > 20 then lastN 20 extended else extended

/-- All turns produced by a sequence of appended (user, assistant) pairs, in
order. -/
def turnsOf (ps : List (String × String)) : List Turn :=
  ps.foldr (fun p acc => ⟨Role.user, p.1⟩ :: ⟨Role.assistant, p.2⟩ :: acc) []

/-- The store after a sequence of appends on channel `ch`, starting from the
empty store. -/
def storeAfterAppends (ps : List (String × String)) (ch : ChannelId) :
    Histories :=
  ps.foldl (fun hs p => update_conversation_history hs ch p.1 p.2)
    emptyHistories

/-- The store operations the bot performs on `conversation_histories`:
`update_conversation_history` (from the `ask` handler) and `del` (from the
`clear` handler). -/
inductive StoreOp
  | append (ch : ChannelId) (user_message assistant_response : String)
  | clear (ch : ChannelId)

/-- Apply one store operation. -/
def applyOp (hs : Histories) : StoreOp → Histories
  | .append ch u a => update_conversation_history hs ch u a
  | .clear ch => fun c => if c = ch then none else hs c

/-- A history made of consecutive (user, assistant) pairs starting with a
user turn; this forces even length and strict role alternation. -/
def pairedHistory : List Turn → Bool
  | [] => true
  | t1 :: t2 :: rest =>
    match t1.role, t2.role with
    | Role.user, Role.assistant => pairedHistory rest
    | _, _ => false
  | [_] => false

/-! ## The completion client (`call_deepseek_api`, lines 28–66) -/

/-- The decoded `"message"` object of one choice; `content = none` models a
missing `"content"` key (Python `KeyError`). -/
structure ApiMessage where
  content : Option String
  deriving DecidableEq, Repr

/-- One element of the `"choices"` array; `message = none` models a missing
`"message"` key. -/
structure ApiChoice where
  message : Option ApiMessage
  deriving DecidableEq, Repr

/-- The decoded JSON body of a 2xx response; `choices = none` models a missing
`"choices"` key. -/
structure ApiResponseBody where
  choices : Option (List ApiChoice)
  deriving DecidableEq, Repr

/-- Outcome of `requests.post` followed by `raise_for_status()`: `failure` is
any `requests.exceptions.RequestException` (connection error or non-2xx
status); `success` carries the decoded JSON body. -/
inductive HttpResult
  | failure
  | success (body : ApiResponseBody)
  deriving DecidableEq, Repr

/-- The JSON payload of the POST request (lines 47–52). -/
structure Payload where
  model : String
  messages : List Turn
  temperature : ℚ
  max_tokens : Nat
  deriving DecidableEq, Repr

/-- Line 63: the fixed apology for transport/HTTP failures. -/
def contactingErrorMsg : String :=
  "Sorry, I encountered an error while contacting DeepSeek API."

/-- Line 66: the fixed apology for response bodies of unexpected shape. -/
def parsingErrorMsg : String :=
  "Sorry, I had trouble understanding the response from DeepSeek."

/-- Lines 37–52: build the `messages` array (`if conversation_history:`
extends with the prior turns, then the new user turn is appended) and the
payload with the current model, temperature 0.7 and `max_tokens` 2000. -/
def build_payload (model message_content : String)
    (conversation_history : List Turn) : Payload :=
  let messages :=
    (if conversation_history.isEmpty then [] else conversation_history) ++
      [⟨Role.user, message_content⟩]
  { model := model, messages := messages, temperature := 7/10,
    max_tokens := 2000 }

/-- Line 59: `result['choices'][0]['message']['content']`; `none` exactly when
Python raises a `KeyError` (missing key) or `IndexError` (empty `choices`). -/
def extractContent (body : ApiResponseBody) : Option String :=
  match body.choices with
  | none => none
  | some [] => none
  | some (c :: _) =>
    match c.message with
    | none => none
    | some m => m.content

/-- Embedding of `call_deepseek_api(message_content, conversation_history)`
(lines 28–66) with the transport abstracted as an oracle `net`: on a
`RequestException` it returns the contacting apology, on a
`KeyError`/`IndexError` while reading the body it returns the parsing
apology, otherwise the first choice's content. Totality of this function is
the embedding of "never raises past this boundary". -/
def call_deepseek_api (model message_content : String)
    (conversation_history : List Turn) (net : Payload → HttpResult) : String :=
  match net (build_payload model message_content conversation_history) with
  | .failure => contactingErrorMsg
  | .success body =>
    match extractContent body with
    | none => parsingErrorMsg
    | some s => s

/-! ## Command handlers and their observable effects -/

/-- The observable effects of one handler invocation, in order: a POST to the
completion endpoint, a `conversation_histories` update, a `ctx.send`. -/
inductive Event
  | apiCall (payload : Payload)
  | storeUpdate (ch : ChannelId) (user_message assistant_response : String)
  | send (text : String)
  deriving DecidableEq, Repr

/-- The mutable process state: `conversation_histories` and the global
`DEEPSEEK_MODEL`. -/
structure BotState where
  histories : Histories
  model : String

def isApiCall : Event → Bool
  | .apiCall _ => true
  | _ => false

def isSend : Event → Bool
  | .send _ => true
  | _ => false

def isStoreUpdate : Event → Bool
  | .storeUpdate _ _ _ => true
  | _ => false

/-- The texts sent to the channel, in order. -/
def sendTexts (tr : List Event) : List String :=
  tr.filterMap fun e =>
    match e with
    | .send s => some s
    | _ => none

/-- Line 111: `[response[i:i+2000] for i in range(0, len(response), 2000)]`,
on the character list of `response`. -/
def chunkChars (cs : List Char) : List (List Char) :=
  if cs = [] then []
  else cs.take 2000 :: chunkChars (cs.drop 2000)
termination_by cs.length
decreasing_by
  simp only [List.length_drop]
  rename_i h
  have : 0 < cs.length := List.length_pos.mpr h
  omega

/-- The chunks of a reply as strings. -/
def chunksOf (response : String) : List String :=
  (chunkChars response.data).map String.mk

/-- Lines 109–115: the messages the `ask` handler sends for a given reply —
the 2000-character chunks when the reply is longer than 2000 characters,
otherwise the reply as a single message. -/
def replySends (response : String) : List String :=
  if response.length > 2000 then chunksOf response else [response]

/-- The body of the `ask` handler (lines 94–115): read the channel's history,
call the API, update the store, then send the reply (chunked if oversized).
Returns the new state and the ordered effect trace. -/
def ask_body (st : BotState) (ch : ChannelId) (question : String)
    (net : Payload → HttpResult) : BotState × List Event :=
  let history := (st.histories ch).getD []
  let payload := build_payload st.model question history
  let response := call_deepseek_api st.model question history net
  ({ st with histories :=
      update_conversation_history st.histories ch question response },
    Event.apiCall payload ::
      Event.storeUpdate ch question response ::
      (replySends response).map Event.send)

/-- Line 156: the corrective reply of `on_command_error` for
`MissingRequiredArgument`. -/
def usageHintMsg : String :=
  "Please provide a question after the command. Example: `!ask What is AI?`"

/-- Dispatch of `!ask`: the `question` parameter is a required consume-rest
argument, so an empty remainder raises `MissingRequiredArgument`, which
`on_command_error` (lines 153–158) answers with the usage hint; otherwise the
handler body runs. -/
def runAsk (st : BotState) (ch : ChannelId) (arg : String)
    (net : Payload → HttpResult) : BotState × List Event :=
  if arg = "" then (st, [Event.send usageHintMsg])
  else ask_body st ch arg net

/-- Embedding of `clear_history` (lines 117–126): `del` the channel's entry
and confirm if present, otherwise report nothing to clear. -/
def clear_history (st : BotState) (ch : ChannelId) : BotState × List Event :=
  match st.histories ch with
  | some _ =>
    ({ st with histories := fun c => if c = ch then none else st.histories c },
      [Event.send "Conversation history cleared!"])
  | none => (st, [Event.send "No conversation history to clear."])

/-- Embedding of `set_model` (lines 128–135): overwrite the global
`DEEPSEEK_MODEL` and confirm. -/
def set_model (st : BotState) (model_name : String) : BotState × List Event :=
  ({ st with model := model_name },
    [Event.send ("Model set to: " ++ model_name)])

/-- Detector: some send occurs after some store update in the trace. -/
def sendAfterUpdate : List Event → Bool
  | [] => false
  | e :: rest => (isStoreUpdate e && rest.any isSend) || sendAfterUpdate rest

/-- Detector: some store update occurs after some send in the trace. -/
def updateAfterSend : List Event → Bool
  | [] => false
  | e :: rest => (isSend e && rest.any isStoreUpdate) || updateAfterSend rest

/-- The claimed ordering "the store is updated after the reply is sent": the
trace has an update and a send, and no send follows an update. -/
def updateOccursAfterSends (tr : List Event) : Bool :=
  tr.any isStoreUpdate && tr.any isSend && !sendAfterUpdate tr

/-- The actual ordering: the trace has an update and a send, and no update
follows a send. -/
def updateOccursBeforeSends (tr : List Event) : Bool :=
  tr.any isStoreUpdate && tr.any isSend && !updateAfterSend tr

/-- A response body with one well-formed choice (`"hi"`). -/
def okBody : ApiResponseBody :=
  { choices := some [{ message := some { content := some "hi" } }] }

/-- A transport oracle that always succeeds with `okBody`. -/
def netOk : Payload → HttpResult := fun _ => HttpResult.success okBody

/-- The process state right after startup. -/
def initialState : BotState :=
  { histories := emptyHistories, model := "deepseek-chat" }

/-- A concrete store for the C6 witness: channel 1 has one exchange, channel
2 has an (empty) entry, every other channel is absent. -/
def demoHistories : Histories := fun c =>
  if c = 1 then some [⟨Role.user, "q"⟩, ⟨Role.assistant, "r"⟩]
  else if c = 2 then some [] else none

/-- A concrete process state for the C6 witness. -/
def demoState : BotState :=
  { histories := demoHistories, model := "deepseek-chat" }

/-! ## Generic facts about `lastN` -/

theorem lastN_eq_reverse_take (n : Nat) (xs : List α) :
    lastN n xs = (xs.reverse.take n).reverse := by
  rw [List.take_reverse, List.reverse_reverse, lastN]

theorem length_lastN_le (n : Nat) (xs : List α) : (lastN n xs).length ≤ n := by
  simp only [lastN, List.length_drop]
  omega

theorem lastN_of_length_le {n : Nat} {xs : List α} (h : xs.length ≤ n) :
    lastN n xs = xs := by
  simp [lastN, Nat.sub_eq_zero_of_le h]

theorem lastN_append_lastN (n : Nat) (xs ys : List α) :
    lastN n (lastN n xs ++ ys) = lastN n (xs ++ ys) := by
  simp only [lastN_eq_reverse_take, List.reverse_append, List.reverse_reverse]
  rw [List.take_append_eq_append_take, List.take_append_eq_append_take,
    List.take_take, Nat.min_eq_left (Nat.sub_le n _), List.length_reverse]

/-! ## Claim C1: the store is bounded to the 20 most recent turns -/

theorem turnsOf_cons (p : String × String) (ps : List (String × String)) :
    turnsOf (p :: ps) =
      ⟨Role.user, p.1⟩ :: ⟨Role.assistant, p.2⟩ :: turnsOf ps := rfl

theorem appendPair_eq_lastN (h : List Turn) (p : String × String) :
    appendPair h p =
      lastN 20 (h ++ [⟨Role.user, p.1⟩, ⟨Role.assistant, p.2⟩]) := by
  simp only [appendPair]
  split
  · rfl
  · exact (lastN_of_length_le (by omega)).symm

theorem foldl_appendPair (ps : List (String × String)) (h : List Turn) :
    ps.foldl appendPair (lastN 20 h) = lastN 20 (h ++ turnsOf ps) := by
  induction ps generalizing h with
  | nil => simp [turnsOf]
  | cons p ps ih =>
    rw [List.foldl_cons, appendPair_eq_lastN, lastN_append_lastN, ih,
      List.append_assoc, turnsOf_cons]
    rfl

theorem storeAfterAppends_at_aux (ps : List (String × String))
    (ch : ChannelId) :
    ∀ hs : Histories,
      ((ps.foldl (fun hs p => update_conversation_history hs ch p.1 p.2)
          hs) ch).getD [] =
        ps.foldl appendPair ((hs ch).getD []) := by
  induction ps with
  | nil => intro hs; rfl
  | cons p ps ih =>
    intro hs
    rw [List.foldl_cons, List.foldl_cons, ih]
    simp [update_conversation_history, appendPair]

/-- C1. For every sequence of append operations on a single channel (each
adding the user turn then the assistant turn, creating the channel's sequence
if absent), the store's history for that channel holds at most 20 turns, and
the retained turns are exactly the most recent 20 appended turns in their
original relative order (`lastN 20`). Quantifying over all sequences covers
every reachable intermediate state, so the bound is an invariant. -/
theorem conversation_store_bounded_to_recent_20 (ps : List (String × String))
    (ch : ChannelId) :
    ((storeAfterAppends ps ch ch).getD []).length ≤ 20 ∧
      (storeAfterAppends ps ch ch).getD [] = lastN 20 (turnsOf ps) := by
  have hmain : (storeAfterAppends ps ch ch).getD [] = lastN 20 (turnsOf ps) := by
    rw [storeAfterAppends, storeAfterAppends_at_aux]
    have h0 : ((emptyHistories ch).getD [] : List Turn) = lastN 20 [] := rfl
    rw [h0, foldl_appendPair, List.nil_append]
  exact ⟨hmain ▸ length_lastN_le 20 (turnsOf ps), hmain⟩

/-! ## Claim C10: histories are alternating (user, assistant) pairs -/

theorem pairedHistory_append_pair (h : List Turn) (u a : String) :
    pairedHistory h = true →
    pairedHistory (h ++ [⟨Role.user, u⟩, ⟨Role.assistant, a⟩]) = true := by
  induction h using pairedHistory.induct with
  | case1 => intro _; simp [pairedHistory]
  | case2 t1 t2 rest h1 h2 ih =>
    intro hh
    have hrest : pairedHistory rest = true := by
      simpa [pairedHistory, h1, h2] using hh
    simpa [pairedHistory, h1, h2] using ih hrest
  | case3 t1 t2 rest hr =>
    intro hh
    exfalso
    have hne : ¬(t1.role = Role.user ∧ t2.role = Role.assistant) :=
      fun hx => hr hx.1 hx.2
    cases hx1 : t1.role <;> cases hx2 : t2.role <;> simp_all [pairedHistory]
  | case4 t =>
    intro hh
    simp [pairedHistory] at hh

theorem pairedHistory_length_even (h : List Turn) :
    pairedHistory h = true → h.length % 2 = 0 := by
  induction h using pairedHistory.induct with
  | case1 => intro _; rfl
  | case2 t1 t2 rest h1 h2 ih =>
    intro hh
    have hrest : pairedHistory rest = true := by
      simpa [pairedHistory, h1, h2] using hh
    have := ih hrest
    simp only [List.length_cons]
    omega
  | case3 t1 t2 rest hr =>
    intro hh
    exfalso
    have hne : ¬(t1.role = Role.user ∧ t2.role = Role.assistant) :=
      fun hx => hr hx.1 hx.2
    cases hx1 : t1.role <;> cases hx2 : t2.role <;> simp_all [pairedHistory]
  | case4 t =>
    intro hh
    simp [pairedHistory] at hh

theorem pairedHistory_drop_even (h : List Turn) :
    ∀ k, pairedHistory h = true → pairedHistory (h.drop (2 * k)) = true := by
  induction h using pairedHistory.induct with
  | case1 => intro k _; simp [pairedHistory]
  | case2 t1 t2 rest h1 h2 ih =>
    intro k hh
    have hrest : pairedHistory rest = true := by
      simpa [pairedHistory, h1, h2] using hh
    cases k with
    | zero => simpa using hh
    | succ k =>
      have h2k : 2 * (k + 1) = 2 * k + 1 + 1 := by omega
      rw [h2k, List.drop_succ_cons, List.drop_succ_cons]
      exact ih k hrest
  | case3 t1 t2 rest hr =>
    intro k hh
    exfalso
    have hne : ¬(t1.role = Role.user ∧ t2.role = Role.assistant) :=
      fun hx => hr hx.1 hx.2
    cases hx1 : t1.role <;> cases hx2 : t2.role <;> simp_all [pairedHistory]
  | case4 t =>
    intro k hh
    simp [pairedHistory] at hh

theorem pairedHistory_lastN_20 {h : List Turn}
    (hh : pairedHistory h = true) : pairedHistory (lastN 20 h) = true := by
  have heven := pairedHistory_length_even h hh
  have hex : ∃ k, h.length - 20 = 2 * k := ⟨(h.length - 20) / 2, by omega⟩
  obtain ⟨k, hk⟩ := hex
  rw [lastN, hk]
  exact pairedHistory_drop_even h k hh

theorem applyOp_preserves_paired {hs : Histories}
    (hinv : ∀ c, pairedHistory ((hs c).getD []) = true) (op : StoreOp) :
    ∀ c, pairedHistory (((applyOp hs op) c).getD []) = true := by
  cases op with
  | clear ch =>
    intro c
    by_cases hc : c = ch <;> simp [applyOp, hc, pairedHistory, hinv c]
  | append ch u a =>
    intro c
    by_cases hc : c = ch
    · subst hc
      have hext := pairedHistory_append_pair _ u a (hinv c)
      simp only [applyOp, update_conversation_history, if_pos rfl,
        Option.getD_some]
      split
      · exact pairedHistory_lastN_20 hext
      · exact hext
    · simpa [applyOp, update_conversation_history, hc] using hinv c

/-- C10. After every sequence of store operations (appends and clears on
arbitrary channels), every channel's history consists of consecutive
(user, assistant) pairs starting with a user turn — in particular it has even
length and strictly alternating roles, and the `lastN 20` truncation never
splits a pair. -/
theorem history_always_paired (ops : List StoreOp) (ch : ChannelId) :
    pairedHistory (((ops.foldl applyOp emptyHistories) ch).getD []) = true := by
  suffices h : ∀ hs : Histories, (∀ c, pairedHistory ((hs c).getD []) = true) →
      ∀ c, pairedHistory (((ops.foldl applyOp hs) c).getD []) = true by
    exact h emptyHistories (fun _ => rfl) ch
  induction ops with
  | nil => exact fun hs hinv => hinv
  | cons op ops ih =>
    intro hs hinv c
    rw [List.foldl_cons]
    exact ih (applyOp hs op) (applyOp_preserves_paired hinv op) c

/-! ## Claim C2: the completion call's error boundary -/

/-- C2. The completion call is total (never raises past its boundary) and
returns: the fixed contacting apology on any transport/HTTP failure, the
distinct fixed parsing apology when the body lacks the expected fields
(no `choices` key, empty `choices`, no `message` or `content` key), and the
first choice's assistant text in all other cases. -/
theorem completion_error_boundary (model message_content : String)
    (conversation_history : List Turn) (net : Payload → HttpResult) :
    (net (build_payload model message_content conversation_history) =
        HttpResult.failure →
      call_deepseek_api model message_content conversation_history net =
        contactingErrorMsg) ∧
    (∀ body,
      net (build_payload model message_content conversation_history) =
        HttpResult.success body →
      extractContent body = none →
      call_deepseek_api model message_content conversation_history net =
        parsingErrorMsg) ∧
    (∀ body s,
      net (build_payload model message_content conversation_history) =
        HttpResult.success body →
      extractContent body = some s →
      call_deepseek_api model message_content conversation_history net = s) ∧
    contactingErrorMsg ≠ parsingErrorMsg := by
  refine ⟨?_, ?_, ?_, by decide⟩
  · intro h
    simp [call_deepseek_api, h]
  · intro body h hx
    simp [call_deepseek_api, h, hx]
  · intro body s h hx
    simp [call_deepseek_api, h, hx]

/-- Witness for C2 at concrete transport outcomes. -/
theorem completion_error_boundary_witness :
    call_deepseek_api "deepseek-chat" "hi" [] (fun _ => HttpResult.failure) =
      contactingErrorMsg ∧
    call_deepseek_api "deepseek-chat" "hi" []
        (fun _ => HttpResult.success { choices := none }) = parsingErrorMsg ∧
    call_deepseek_api "deepseek-chat" "hi" []
        (fun _ => HttpResult.success
          { choices := some [{ message := some { content := some "ok" } }] }) =
      "ok" :=
  ⟨(completion_error_boundary "deepseek-chat" "hi" [] _).1 rfl,
   (completion_error_boundary "deepseek-chat" "hi" [] _).2.1
     { choices := none } rfl rfl,
   (completion_error_boundary "deepseek-chat" "hi" [] _).2.2.1
     { choices := some [{ message := some { content := some "ok" } }] }
     "ok" rfl rfl⟩

/-! ## Claim C3: shape of the request payload -/

/-- C3. The request payload consists of the prior turns in order followed by
exactly one new user-role turn with the prompt, the current model name,
temperature 0.7 and `max_tokens` 2000 — for every prompt and every (possibly
empty) history. -/
theorem request_payload_shape (model message_content : String)
    (conversation_history : List Turn) :
    build_payload model message_content conversation_history =
      { model := model,
        messages := conversation_history ++ [⟨Role.user, message_content⟩],
        temperature := 7/10,
        max_tokens := 2000 } := by
  unfold build_payload
  by_cases h : conversation_history.isEmpty
  · simp_all [List.isEmpty_iff]
  · simp [h]

/-! ## Basic facts about chunking -/

theorem chunkChars_eq (cs : List Char) :
    chunkChars cs =
      if cs = [] then [] else cs.take 2000 :: chunkChars (cs.drop 2000) := by
  rw [chunkChars]

theorem chunkChars_ne_nil {cs : List Char} (h : cs ≠ []) :
    chunkChars cs ≠ [] := by
  rw [chunkChars_eq, if_neg h]
  exact List.cons_ne_nil _ _

theorem chunkChars_flatten (cs : List Char) : (chunkChars cs).flatten = cs := by
  induction cs using chunkChars.induct with
  | case1 => simp [chunkChars_eq]
  | case2 cs h ih =>
    rw [chunkChars_eq, if_neg h]
    simp only [List.flatten_cons, ih, List.take_append_drop]

theorem chunkChars_length_le (cs : List Char) :
    ∀ c ∈ chunkChars cs, c.length ≤ 2000 := by
  induction cs using chunkChars.induct with
  | case1 => rw [chunkChars_eq]; intro c hc; simp at hc
  | case2 cs h ih =>
    rw [chunkChars_eq, if_neg h]
    intro c hc
    rcases List.mem_cons.mp hc with hc | hc
    · subst hc
      simp
    · exact ih c hc

theorem chunkChars_4500 (cs : List Char) (h : cs.length = 4500) :
    (chunkChars cs).map List.length = [2000, 2000, 500] := by
  have h0 : cs ≠ [] := by
    intro hn; rw [hn] at h; simp at h
  have h1 : cs.drop 2000 ≠ [] := by
    intro hn
    have := congrArg List.length hn
    simp at this
    omega
  have h2 : (cs.drop 2000).drop 2000 ≠ [] := by
    intro hn
    have := congrArg List.length hn
    simp at this
    omega
  have h3 : ((cs.drop 2000).drop 2000).drop 2000 = [] := by
    rw [← List.length_eq_zero]
    simp
    omega
  rw [chunkChars_eq, if_neg h0, chunkChars_eq, if_neg h1, chunkChars_eq,
    if_neg h2, chunkChars_eq, if_pos h3]
  simp [h]

theorem data_mk_comp : String.data ∘ String.mk = id := funext fun _ => rfl

theorem length_mk_comp : String.length ∘ String.mk = List.length :=
  funext fun _ => rfl

theorem replySends_ne_nil (response : String) : replySends response ≠ [] := by
  by_cases h : response.length > 2000
  · rw [replySends, if_pos h, chunksOf]
    have hd : response.data ≠ [] := by
      intro hn
      have hz : response.length = 0 := by
        show response.data.length = 0
        rw [hn]
        rfl
      omega
    intro hmap
    exact chunkChars_ne_nil hd (List.map_eq_nil_iff.mp hmap)
  · rw [replySends, if_neg h]
    simp

/-! ## Claim C4: fixed-size chunking of oversized replies -/

/-- C4. The `ask` handler's reply sending: a reply of at most 2000 characters
goes out as a single message; a longer reply goes out as the consecutive
fixed-size chunks (each at most 2000 characters, no word-boundary
adjustment); a reply of exactly 4500 characters goes out as three chunks of
sizes 2000, 2000 and 500, in that order. -/
theorem reply_chunking_fixed_size (response : String) :
    (response.length ≤ 2000 → replySends response = [response]) ∧
    (2000 < response.length →
      replySends response = chunksOf response ∧
      ∀ c ∈ replySends response, c.length ≤ 2000) ∧
    (response.length = 4500 →
      (replySends response).map String.length = [2000, 2000, 500]) := by
  refine ⟨?_, ?_, ?_⟩
  · intro h
    rw [replySends, if_neg (by omega)]
  · intro h
    have he : replySends response = chunksOf response := by
      rw [replySends, if_pos h]
    refine ⟨he, ?_⟩
    rw [he, chunksOf]
    intro c hc
    rcases List.mem_map.mp hc with ⟨l, hl, rfl⟩
    exact chunkChars_length_le response.data l hl
  · intro h
    have h45 : response.data.length = 4500 := h
    rw [replySends, if_pos (by omega), chunksOf, List.map_map,
      length_mk_comp, chunkChars_4500 response.data h45]

/-- Witness for C4 at a concrete 4500-character reply. -/
theorem reply_chunking_fixed_size_witness :
    (String.mk (List.replicate 4500 'a')).length = 4500 ∧
    (replySends (String.mk (List.replicate 4500 'a'))).map String.length =
      [2000, 2000, 500] := by
  have h : (String.mk (List.replicate 4500 'a')).length = 4500 := by
    show (List.replicate 4500 'a').length = 4500
    rw [List.length_replicate]
  exact ⟨h,
    (reply_chunking_fixed_size (String.mk (List.replicate 4500 'a'))).2.2 h⟩

/-! ## Claim C9: chunking concatenates back to the reply -/

theorem replySends_concat (response : String) :
    ((replySends response).map String.data).flatten = response.data := by
  by_cases h : response.length > 2000
  · rw [replySends, if_pos h, chunksOf, List.map_map, data_mk_comp,
      List.map_id, chunkChars_flatten]
  · rw [replySends, if_neg h]
    simp

theorem sendTexts_map_send (l : List String) :
    sendTexts (l.map Event.send) = l := by
  induction l with
  | nil => rfl
  | cons s l ih =>
    simp only [List.map_cons, sendTexts, List.filterMap_cons] at ih ⊢
    rw [ih]

/-- C9. Chunking loses, duplicates and reorders no characters: for every
reply text, the concatenation (in send order) of the texts the `ask` handler
sends equals the reply exactly; and the texts the handler sends are exactly
`replySends` of the API's reply. -/
theorem chunking_concat_exact (st : BotState) (ch : ChannelId) (q : String)
    (net : Payload → HttpResult) (response : String) :
    ((replySends response).map String.data).flatten = response.data ∧
    sendTexts (ask_body st ch q net).2 =
      replySends
        (call_deepseek_api st.model q ((st.histories ch).getD []) net) := by
  refine ⟨replySends_concat response, ?_⟩
  show sendTexts (Event.apiCall _ :: Event.storeUpdate _ _ _ ::
    (replySends _).map Event.send) = _
  simp only [sendTexts, List.filterMap_cons]
  exact sendTexts_map_send _

/-! ## Claim C5: order of store update and sends in the `ask` handler -/

/-- C5 counterexample: on a fresh channel with a successful API reply, the
`ask` handler's trace does NOT place the store update after the sends — the
update (line 107) precedes the sends (lines 110–115). -/
theorem store_update_after_sends_refuted :
    ¬ (updateOccursAfterSends (ask_body initialState 1 "q" netOk).2 = true) := by
  decide

theorem any_isStoreUpdate_map_send (l : List String) :
    (l.map Event.send).any isStoreUpdate = false := by
  induction l with
  | nil => rfl
  | cons s l ih => simp [isStoreUpdate, ih]

theorem updateAfterSend_map_send (l : List String) :
    updateAfterSend (l.map Event.send) = false := by
  induction l with
  | nil => rfl
  | cons s l ih =>
    simp [updateAfterSend, isSend, any_isStoreUpdate_map_send, ih]

theorem any_isSend_map_send {l : List String} (h : l ≠ []) :
    (l.map Event.send).any isSend = true := by
  cases l with
  | nil => exact absurd rfl h
  | cons s l => simp [isSend]

/-- C5 amended: in the `ask` handler's effect trace the store update with
(question, reply) occurs BEFORE the reply message(s) are sent, for every
state, channel, question and transport outcome. -/
theorem store_update_precedes_sends (st : BotState) (ch : ChannelId)
    (q : String) (net : Payload → HttpResult) :
    updateOccursBeforeSends (ask_body st ch q net).2 = true := by
  show updateOccursBeforeSends (Event.apiCall _ :: Event.storeUpdate _ _ _ ::
    (replySends _).map Event.send) = true
  simp [updateOccursBeforeSends, updateAfterSend, isApiCall, isSend,
    isStoreUpdate, any_isStoreUpdate_map_send, updateAfterSend_map_send,
    any_isSend_map_send (replySends_ne_nil _)]

/-! ## Claim C8: `ask` with an empty/missing argument -/

/-- C8. `!ask` with an empty (missing) trailing argument replies with the
corrective usage hint, performs zero API calls, and leaves the state — in
particular the conversation store — unchanged. -/
theorem empty_ask_no_api_call (st : BotState) (ch : ChannelId)
    (net : Payload → HttpResult) :
    runAsk st ch "" net = (st, [Event.send usageHintMsg]) ∧
    (runAsk st ch "" net).2.countP isApiCall = 0 := by
  have h : runAsk st ch "" net = (st, [Event.send usageHintMsg]) := by
    rw [runAsk, if_pos rfl]
  refine ⟨h, ?_⟩
  rw [h]
  rfl

/-! ## Claim C6: `clear` removes exactly the invoking channel's history -/

/-- C6. `!clear` on a channel with history removes exactly that channel's
entry — every other channel's history and the model selection are unchanged —
and confirms; on a channel without history it leaves the whole state
unchanged and reports nothing to clear. -/
theorem clear_removes_exactly_channel (st : BotState) (ch : ChannelId) :
    ((st.histories ch).isSome = true →
      (clear_history st ch).1.histories ch = none ∧
      (∀ c, c ≠ ch → (clear_history st ch).1.histories c = st.histories c) ∧
      (clear_history st ch).1.model = st.model ∧
      (clear_history st ch).2 = [Event.send "Conversation history cleared!"]) ∧
    ((st.histories ch).isSome = false →
      (clear_history st ch).1 = st ∧
      (clear_history st ch).2 =
        [Event.send "No conversation history to clear."]) := by
  constructor
  · intro h
    rcases hx : st.histories ch with _ | l
    · rw [hx] at h
      simp at h
    · refine ⟨?_, ?_, ?_, ?_⟩
      · simp [clear_history, hx]
      · intro c hc
        simp [clear_history, hx, hc]
      · simp [clear_history, hx]
      · simp [clear_history, hx]
  · intro h
    rcases hx : st.histories ch with _ | l
    · exact ⟨by simp [clear_history, hx], by simp [clear_history, hx]⟩
    · rw [hx] at h
      simp at h

/-- Witness for C6: clearing channel 1 empties exactly channel 1 and leaves
channel 2 alone; clearing the absent channel 3 changes nothing. -/
theorem clear_removes_exactly_channel_witness :
    (clear_history demoState 1).1.histories 1 = none ∧
    (clear_history demoState 1).1.histories 2 = demoState.histories 2 ∧
    (clear_history demoState 1).2 =
      [Event.send "Conversation history cleared!"] ∧
    (clear_history demoState 3).1 = demoState ∧
    (clear_history demoState 3).2 =
      [Event.send "No conversation history to clear."] := by
  have h1 := (clear_removes_exactly_channel demoState 1).1 (by rfl)
  have h3 := (clear_removes_exactly_channel demoState 3).2 (by rfl)
  exact ⟨h1.1, h1.2.1 2 (by decide), h1.2.2.2, h3.1, h3.2⟩

/-! ## Claim C7: `model` overwrites the shared model selection -/

/-- C7. `!model <name>` overwrites the process-wide model selection: the new
state's model is `name`, every subsequent request payload built from that
state carries `model = name`, every channel's stored turns are untouched,
and the handler confirms the new value. -/
theorem set_model_overwrites_selection (st : BotState) (model_name : String) :
    (set_model st model_name).1.model = model_name ∧
    (∀ c, (set_model st model_name).1.histories c = st.histories c) ∧
    (∀ question history,
      (build_payload (set_model st model_name).1.model question history).model
        = model_name) ∧
    (set_model st model_name).2 =
      [Event.send ("Model set to: " ++ model_name)] :=
  ⟨rfl, fun _ => rfl, fun _ _ => rfl, rfl⟩

end DeepSeekBot
